import Mathlib

/-!
Shallow embedding of the two scripts of this repository:
  * `src/agarthan/report_service/push_random_reports.py`  (namespace `PushReports`)
  * `src/dev_scripts/seed_users.py`                       (namespace `SeedUsers`)

Python strings are modelled as `List Char` (abbreviated `Str`); machine
integers are `Int`/`Nat`; Python floats appear here only as decimal literals
compared with `<=`/`<`, so they are modelled as `Rat`; fallible code returns
`Except`/`Option`.  External effects (the PRNG of the `random` module, the
network, bcrypt, the database driver) are modelled by explicit parameters,
and the observable behaviour of each `main` (exit code, counters, printed
tallies, database state) is returned as a record.
-/

/-- Python strings, modelled as lists of characters. -/
abbrev Str := List Char

/-- The whitespace characters stripped by Python's `str.strip()` (ASCII part). -/
def pySpace (c : Char) : Bool :=
  c = ' ' || c = '\t' || c = '\n' || c = '\r' || c = '\x0b' || c = '\x0c'

/-- Python `s.strip()`: remove leading and trailing whitespace. -/
def pyStrip (l : Str) : Str :=
  ((l.dropWhile pySpace).reverse.dropWhile pySpace).reverse

/-- Python `s.split(",")`: split on every comma; segments may be empty, and
the empty string splits to `[""]`. -/
def splitComma : Str → List Str
  | [] => [[]]
  | c :: rest =>
    if c = ',' then [] :: splitComma rest
    else
      match splitComma rest with
      | [] => [[c]]
      | s :: ss => (c :: s) :: ss

/-- Decimal value of a digit string (caller checks all characters are digits). -/
def digitsVal (l : Str) : Nat :=
  l.foldl (fun acc c => acc * 10 + (c.toNat - '0'.toNat)) 0

/-- A nonempty all-digit string parsed to a natural number, else `none`. -/
def digitsToNat (l : Str) : Option Nat :=
  if l ≠ [] ∧ l.all Char.isDigit then some (digitsVal l) else none

/-- Python `int(s)` on the inputs relevant here: surrounding whitespace is
ignored, an optional sign is followed by one or more decimal digits.
(Exotic accepted forms such as underscore separators and non-ASCII digits
are not modelled; no input in this repository uses them.) -/
def pyInt (l : Str) : Option Int :=
  match pyStrip l with
  | '+' :: ds => (digitsToNat ds).map Int.ofNat
  | '-' :: ds => (digitsToNat ds).map (fun n => -(Int.ofNat n))
  | ds => (digitsToNat ds).map Int.ofNat

namespace PushReports

/-- The two error shapes raised by `parse_int_list`: an invalid (non-integer)
stripped segment, or an input with no non-empty segment at all. -/
inductive IntListErr where
  | invalidValue (part : Str)
  | noValues
  deriving DecidableEq

/-- The accumulation loop of `parse_int_list`: strip each comma-separated
part, skip empty parts, convert the rest with `int`, raising on the first
invalid one. -/
def collectInts : List Str → Except IntListErr (List Int)
  | [] => .ok []
  | p :: rest =>
    if pyStrip p = [] then collectInts rest
    else
      match pyInt (pyStrip p) with
      | none => .error (.invalidValue (pyStrip p))
      | some n => (collectInts rest).map (fun vs => n :: vs)

/-- `parse_int_list(raw, label)` from `push_random_reports.py`: split on
commas, strip, skip empties, parse ints, and require at least one value. -/
def parse_int_list (raw : Str) : Except IntListErr (List Int) :=
  match collectInts (splitComma raw) with
  | .error e => .error e
  | .ok [] => .error .noValues
  | .ok vs => .ok vs

/-- The non-empty stripped segments of a list of raw parts. -/
def segsParts (parts : List Str) : List Str :=
  (parts.map pyStrip).filter (fun s => s ≠ [])

/-- The non-empty stripped comma-separated segments of a raw list argument
(the segments `parse_int_list` actually tries to convert, and the severity
list built by `[s.strip() for s in args.severities.split(",") if s.strip()]`). -/
def segsOf (raw : Str) : List Str :=
  segsParts (splitComma raw)

/-- `args.base_url.rstrip("/")`: remove all trailing slash characters. -/
def rstripSlashes (l : Str) : Str :=
  (l.reverse.dropWhile (fun c => c = '/')).reverse

/-- `args.endpoint.startswith("/")`. -/
def startsWithSlash : Str → Bool
  | [] => false
  | c :: _ => decide (c = '/')

/-- The URL built by `main`:
`f"{args.base_url.rstrip('/')}{endpoint}"` where `endpoint` is the argument
prefixed with `/` when it does not already start with one. -/
def mkUrl (base ep : Str) : Str :=
  rstripSlashes base ++ (if startsWithSlash ep then ep else '/' :: ep)

/-- "Exactly one `/` between base URL and endpoint path": the built URL is
the stripped base, one slash, then a remainder that does not start with a
further slash. -/
def OneSlashJoin (base ep : Str) : Prop :=
  ∃ t, mkUrl base ep = rstripSlashes base ++ '/' :: t ∧ t.head? ≠ some '/'

/-- An endpoint argument beginning with two slashes. -/
def twoLeadingSlashes (l : Str) : Bool :=
  startsWithSlash l && startsWithSlash l.tail

/-- The fixed word banks at the top of `push_random_reports.py`. -/
def DEFAULT_SEVERITIES : List Str :=
  ["low".toList, "medium".toList, "high".toList, "critical".toList]

def DEFAULT_LOCATIONS : List Str :=
  ["5th Ave and Pine St".toList, "Main St near the library".toList,
   "Central Park entrance".toList, "Station Road underpass".toList,
   "Riverside bike lane".toList, "Market district block C".toList]

def DEFAULT_TITLE_NOUNS : List Str :=
  ["streetlight".toList, "pothole".toList, "traffic signal".toList,
   "sidewalk".toList, "drain".toList, "crosswalk".toList, "bus stop".toList,
   "bridge".toList, "tree".toList]

def DEFAULT_TITLE_ADJECTIVES : List Str :=
  ["broken".toList, "damaged".toList, "blocked".toList, "flooded".toList,
   "missing".toList, "unsafe".toList, "flickering".toList, "collapsed".toList,
   "overgrown".toList]

def DEFAULT_DESCRIPTION_WORDS : List Str :=
  ["resident".toList, "reported".toList, "issue".toList, "causing".toList,
   "danger".toList, "traffic".toList, "slow".toList, "visibility".toList,
   "hazard".toList, "night".toList, "morning".toList, "urgent".toList,
   "needs".toList, "repair".toList, "cleanup".toList, "inspection".toList,
   "area".toList, "community".toList, "safety".toList]

/-- Abstract model of the global PRNG of Python's `random` module: a state
type `σ`, `random.seed` as `seedFn`, and one stepping function per primitive
the script uses.  `choiceStep`/`choicesStep` return indices below the given
list length (any out-of-range index is read with a default, which never
occurs for a faithful instance). -/
structure RNGModel (σ : Type) where
  seedFn : Int → σ
  randintStep : σ → Int → Int → Int × σ
  choiceStep : σ → Nat → Nat × σ
  choicesStep : σ → Nat → Nat → List Nat × σ
  randomStep : σ → Rat × σ

/-- Python `word.capitalize()`: first character upper-cased, rest lowered. -/
def pyCapitalize : Str → Str
  | [] => []
  | c :: rest => Char.toUpper c :: rest.map Char.toLower

/-- `sentence[:1].upper() + sentence[1:] + "."` from `random_sentence`. -/
def capDot : Str → Str
  | [] => ['.']
  | c :: rest => Char.toUpper c :: rest ++ ['.']

/-- `random_sentence(word_bank, min_words, max_words)`: a random length in
`[min_words, max_words]`, that many words chosen (with replacement) from the
bank, joined by spaces, stripped, capitalized, and period-terminated. -/
def random_sentence (M : RNGModel σ) (bank : List Str) (minW maxW : Int)
    (g : σ) : Str × σ :=
  let p1 := M.randintStep g minW maxW
  let p2 := M.choicesStep p1.2 bank.length p1.1.toNat
  (capDot (pyStrip (List.intercalate [' '] (p2.1.map (fun i => bank.getD i [])))), p2.2)

/-- `random_title()`: a capitalized adjective and a noun from the fixed
banks, space-separated. -/
def random_title (M : RNGModel σ) (g : σ) : Str × σ :=
  let pa := M.choiceStep g DEFAULT_TITLE_ADJECTIVES.length
  let pn := M.choiceStep pa.2 DEFAULT_TITLE_NOUNS.length
  (pyCapitalize (DEFAULT_TITLE_ADJECTIVES.getD pa.1 []) ++
    ' ' :: DEFAULT_TITLE_NOUNS.getD pn.1 [], pn.2)

/-- One generated report payload (the JSON body of one request). -/
structure Payload where
  title : Str
  description : Str
  location : Str
  severity : Str
  report_categories_id : Int
  is_public : Bool
  is_anon : Bool
  deriving DecidableEq

/-- `random_report(categories, severities)`: the five random fields drawn in
source order (title, description, location, severity, category).  The two
booleans are set by the caller (`main`) and start out `false` here, exactly
as the dict returned by the Python function has no such keys yet. -/
def random_report (M : RNGModel σ) (cats : List Int) (sevs : List Str)
    (g : σ) : Payload × σ :=
  let pt := random_title M g
  let pd := random_sentence M DEFAULT_DESCRIPTION_WORDS 8 14 pt.2
  let pl := M.choiceStep pd.2 DEFAULT_LOCATIONS.length
  let ps := M.choiceStep pl.2 sevs.length
  let pc := M.choiceStep ps.2 cats.length
  (⟨pt.1, pd.1, DEFAULT_LOCATIONS.getD pl.1 [], sevs.getD ps.1 [],
    cats.getD pc.1 0, false, false⟩, pc.2)

/-- The loop body's completion of a payload: after `random_report`, `main`
draws `random.random()` twice and compares against the two rates. -/
def genPayload (M : RNGModel σ) (cats : List Int) (sevs : List Str)
    (publicRate anonRate : Rat) (g : σ) : Payload × σ :=
  let pr := random_report M cats sevs g
  let p1 := M.randomStep pr.2
  let p2 := M.randomStep p1.2
  ({ pr.1 with is_public := p1.1 < publicRate, is_anon := p2.1 < anonRate }, p2.2)

/-- The parsed command-line arguments of the pusher (after `argparse` has
applied flag values, defaults and environment fallbacks). -/
structure PusherArgs where
  token : Option Str
  base_url : Str
  endpoint : Str
  count : Int
  categories : Str
  severities : Str
  public_rate : Rat
  anon_rate : Rat
  seed : Option Int
  dry_run : Bool

/-- The `default=os.getenv("REPORT_JWT") or os.getenv("JWT_TOKEN")` fallback
for `--token`: an explicit flag wins; otherwise the first environment
variable when it is truthy (set and non-empty), else the second. -/
def resolveToken (flag envReportJwt envJwtToken : Option Str) : Option Str :=
  match flag with
  | some t => some t
  | none =>
    match envReportJwt with
    | some s => if s ≠ [] then some s else envJwtToken
    | none => envJwtToken

/-- `if not args.token`: the token is missing or the empty string. -/
def tokenFalsy : Option Str → Bool
  | none => true
  | some s => s.isEmpty

/-- Mutable state of the request loop in `main`. -/
structure LoopState (σ : Type) where
  g : σ
  successes : Nat
  failures : Nat
  payloads : List Payload
  attempts : Nat
  printed : Nat

/-- Fixed context of the request loop. -/
structure LoopCtx (σ : Type) where
  M : RNGModel σ
  cats : List Int
  sevs : List Str
  publicRate : Rat
  anonRate : Rat
  dryRun : Bool
  net : Nat → Bool

/-- The `for idx in range(1, args.count + 1)` loop of `main`: generate a
payload, then either print it (dry-run) or post it, counting the outcome
reported by the network oracle `net` for the current index. -/
def runIters (C : LoopCtx σ) : Nat → Nat → LoopState σ → LoopState σ
  | 0, _, st => st
  | k + 1, idx, st =>
    let pp := genPayload C.M C.cats C.sevs C.publicRate C.anonRate st.g
    if C.dryRun then
      runIters C k (idx + 1)
        { st with g := pp.2, payloads := st.payloads ++ [pp.1],
                  printed := st.printed + 1 }
    else
      runIters C k (idx + 1)
        { g := pp.2,
          successes := st.successes + (if C.net idx then 1 else 0),
          failures := st.failures + (if C.net idx then 0 else 1),
          payloads := st.payloads ++ [pp.1],
          attempts := st.attempts + 1,
          printed := st.printed }

/-- Observable outcome of one pusher run: exit code, number of POST attempts,
number of dry-run payload lines, the generated payloads in order, the two
counters, the request URL (once built) and the final tally line. -/
structure PushResult where
  exitCode : Int
  attempts : Nat
  printed : Nat
  payloads : List Payload
  successes : Nat
  failures : Nat
  url : Option Str
  tally : Option (Nat × Nat)

/-- Outcome of a run that stops during validation with exit code `k`. -/
def failRes (k : Int) : PushResult := ⟨k, 0, 0, [], 0, 0, none, none⟩

/-- `main()` of `push_random_reports.py`.  `g0` is the PRNG state inherited
at startup (replaced by `seedFn` when `--seed` is given); `net idx` tells
whether the `idx`-th POST succeeds.  Validation order follows the source:
token and count inside `parse_args` (argparse usage errors exit with 2),
then seeding, category/severity parsing, and the two rate checks. -/
def main (M : RNGModel σ) (args : PusherArgs) (g0 : σ) (net : Nat → Bool) :
    PushResult :=
  if tokenFalsy args.token then failRes 2
  else if args.count ≤ 0 then failRes 2
  else
    let g1 := match args.seed with | some s => M.seedFn s | none => g0
    match parse_int_list args.categories with
    | .error _ => failRes 2
    | .ok categories =>
      let severities := segsOf args.severities
      if severities = [] then failRes 2
      else if ¬ (0 ≤ args.public_rate ∧ args.public_rate ≤ 1) then failRes 2
      else if ¬ (0 ≤ args.anon_rate ∧ args.anon_rate ≤ 1) then failRes 2
      else
        let url := mkUrl args.base_url args.endpoint
        let st := runIters ⟨M, categories, severities, args.public_rate,
          args.anon_rate, args.dry_run, net⟩ args.count.toNat 1 ⟨g1, 0, 0, [], 0, 0⟩
        { exitCode := if st.failures = 0 then 0 else 1,
          attempts := st.attempts, printed := st.printed,
          payloads := st.payloads, successes := st.successes,
          failures := st.failures, url := some url,
          tally := some (st.successes, st.failures) }

/-- All argument validation passing (token truthy, positive count, category
list parses, severity list non-empty, both rates in `[0,1]`). -/
def argsValid (a : PusherArgs) : Prop :=
  tokenFalsy a.token = false ∧ 0 < a.count ∧
  (parse_int_list a.categories).isOk = true ∧ segsOf a.severities ≠ [] ∧
  (0 ≤ a.public_rate ∧ a.public_rate ≤ 1) ∧ (0 ≤ a.anon_rate ∧ a.anon_rate ≤ 1)

instance (a : PusherArgs) : Decidable (argsValid a) := by
  unfold argsValid; infer_instance

/-- Number of failed deliveries among `k` attempts starting at index `idx`,
as judged by the network oracle. -/
def countFails (net : Nat → Bool) : Nat → Nat → Nat
  | _, 0 => 0
  | idx, k + 1 => (if net idx then 0 else 1) + countFails net (idx + 1) k

/-- Number of successful deliveries among `k` attempts starting at `idx`. -/
def countSuccs (net : Nat → Bool) : Nat → Nat → Nat
  | _, 0 => 0
  | idx, k + 1 => (if net idx then 1 else 0) + countSuccs net (idx + 1) k

/-- A degenerate but well-typed PRNG instance (state `Unit`), used only to
evaluate closed runs in witnesses. -/
def unitRNG : RNGModel Unit :=
  ⟨fun _ => (), fun g a _ => (a, g), fun g _ => (0, g),
   fun g _ k => (List.replicate k 0, g), fun g => (0, g)⟩

/-- A concrete valid live-mode argument vector (defaults of the script with
a token present and `--count=3`). -/
def argsLive : PusherArgs :=
  ⟨some "tok".toList, "http://localhost:3001".toList, "/reports".toList, 3,
   "1".toList, "low,medium,high,critical".toList, mkRat 7 10, mkRat 1 5,
   none, false⟩

/-- The same argument vector in dry-run mode. -/
def argsDry : PusherArgs := { argsLive with dry_run := true }

end PushReports

namespace SeedUsers

/-- An entry of the `ROLES` seed list (and a row of the `roles` table). -/
structure SeedRole where
  role_id : Int
  name : Str
  deriving DecidableEq

/-- An entry of the `DEPARTMENTS` seed list (and a row of `departments`). -/
structure SeedDept where
  department_id : Int
  name : Str
  deriving DecidableEq

/-- An entry of `REPORT_CATEGORIES` (and a row of `report_categories`). -/
structure SeedCat where
  report_categories_id : Int
  name : Str
  department_id : Int
  deriving DecidableEq

/-- An entry of the `USERS` seed list (plaintext password, raw timestamp). -/
structure SeedUser where
  user_id : Int
  email : Str
  password : Str
  name : Str
  is_active : Bool
  created_at : Option Str
  role_id : Int
  department_id : Int
  deriving DecidableEq

/-- A normalized user tuple as produced by `normalize_users` (and a row of
the `users` table): the password is hashed and the timestamp parsed. -/
structure UserRow where
  user_id : Int
  email : Str
  password : Str
  name : Str
  is_active : Bool
  created_at : Str
  role_id : Int
  department_id : Int
  deriving DecidableEq

/-- The fixed seed lists at the top of `seed_users.py`. -/
def ROLES : List SeedRole :=
  [⟨0, "user".toList⟩, ⟨1, "staff".toList⟩]

def DEPARTMENTS : List SeedDept :=
  [⟨1, "Field Operations".toList⟩]

def REPORT_CATEGORIES : List SeedCat :=
  [⟨1, "Infrastructure".toList, 1⟩]

def USERS : List SeedUser :=
  [⟨1, "normal.user@example.com".toList, "Password123!".toList,
    "Normal User".toList, true, some "2025-01-01T00:00:00Z".toList, 0, 0⟩,
   ⟨2, "staff.user@example.com".toList, "StaffPass123!".toList,
    "Staff User".toList, true, some "2025-01-01T00:00:00Z".toList, 1, 1⟩]

/-- Shape check for `datetime.fromisoformat` on the formats this script can
produce after `Z`-replacement: `YYYY-MM-DD`, optionally `THH:MM:SS`,
optionally a `+HH:MM`/`-HH:MM` offset.  (Component range checks and the
further fractional/short forms accepted by CPython are not modelled; no
input in this repository exercises them.) -/
def matchIso (l : Str) : Bool :=
  match l with
  | y1 :: y2 :: y3 :: y4 :: '-' :: m1 :: m2 :: '-' :: d1 :: d2 :: rest =>
    [y1, y2, y3, y4, m1, m2, d1, d2].all Char.isDigit &&
    (match rest with
     | [] => true
     | 'T' :: h1 :: h2 :: ':' :: n1 :: n2 :: ':' :: s1 :: s2 :: rest2 =>
       [h1, h2, n1, n2, s1, s2].all Char.isDigit &&
       (match rest2 with
        | [] => true
        | sg :: o1 :: o2 :: ':' :: o3 :: o4 :: [] =>
          (sg = '+' || sg = '-') && [o1, o2, o3, o4].all Char.isDigit
        | _ => false)
     | _ => false)
  | _ => false

/-- `datetime.fromisoformat(value)`, with a datetime value modelled as its
normalized ISO string. -/
def fromIso (l : Str) : Option Str :=
  if matchIso l then some l else none

/-- `parse_timestamp(raw, fallback)`: falsy input falls back, a stripped
value ending in `Z` has the suffix replaced by `+00:00`, and the result is
parsed as an ISO timestamp (`ValueError` modelled as `.error`). -/
def parse_timestamp (raw : Option Str) (fallback : Str) : Except Str Str :=
  match raw with
  | none => .ok fallback
  | some r =>
    if r = [] then .ok fallback
    else
      let value := pyStrip r
      if value = [] then .ok fallback
      else
        let v := if value.getLast? = some 'Z'
                 then value.dropLast ++ "+00:00".toList else value
        match fromIso v with
        | some t => .ok t
        | none => .error ("Invalid created_at timestamp: ".toList ++ r)

/-- `normalize_users(users, cost)`: per user, parse the timestamp, hash the
password (bcrypt with a fresh random salt, modelled by the run's hashing
function `hashFn`), and build the insert tuple.  An invalid timestamp
raises, aborting the loop at that user. -/
def normalize_users (users : List SeedUser) (cost : Int)
    (hashFn : Str → Int → Str) (now : Str) : Except Str (List UserRow) :=
  match users with
  | [] => .ok []
  | u :: rest =>
    match parse_timestamp u.created_at now with
    | .error e => .error e
    | .ok createdAt =>
      let hashed := hashFn u.password cost
      match normalize_users rest cost hashFn now with
      | .error e => .error e
      | .ok tail =>
        .ok (⟨u.user_id, u.email, hashed, u.name, u.is_active, createdAt,
              u.role_id, u.department_id⟩ :: tail)

/-- Number of `hash_password` invocations a run performs: one per user of
the longest prefix whose timestamps parse (the loop hashes each user after
parsing that user's timestamp, and aborts at the first invalid one). -/
def hashesDone (users : List SeedUser) (now : Str) : Nat :=
  (users.takeWhile (fun u => (parse_timestamp u.created_at now).isOk)).length

/-- Runtime capabilities and the behaviour of the external systems during
one run: the two importable dependencies, whether `psycopg2.connect`
succeeds, and whether the inserts inside the transaction succeed. -/
structure SeederEnv where
  bcryptOk : Bool
  psycopg2Ok : Bool
  connectOk : Bool
  insertOk : Bool

/-- `validate_dependencies()`: a remediation message when an import failed
(message text abridged), else `None`. -/
def validate_dependencies (env : SeederEnv) : Option Str :=
  if !env.bcryptOk then some "Missing dependency: bcrypt".toList
  else if !env.psycopg2Ok then some "Missing dependency: psycopg2".toList
  else none

/-- Generic `INSERT ... ON CONFLICT (key) DO UPDATE` of one row: when a row
with the same key exists it is merged (the `DO UPDATE SET` column list),
otherwise the row is appended. -/
def upsertRow {ρ κ : Type} [DecidableEq κ] (key : ρ → κ) (merge : ρ → ρ → ρ)
    (table : List ρ) (row : ρ) : List ρ :=
  if table.any (fun r => decide (key r = key row)) then
    table.map (fun r => if key r = key row then merge r row else r)
  else table ++ [row]

/-- `insert_roles`: upsert keyed on `role_id`, overwriting `name`; returns
the row count reported by the function. -/
def insert_roles (table : List SeedRole) (roles : List SeedRole) :
    List SeedRole × Nat :=
  if roles = [] then (table, 0)
  else (roles.foldl
    (upsertRow (fun r => r.role_id) (fun old new => ⟨old.role_id, new.name⟩))
    table, roles.length)

/-- `insert_departments`: upsert keyed on `department_id`, overwriting
`name`. -/
def insert_departments (table : List SeedDept) (departments : List SeedDept) :
    List SeedDept × Nat :=
  if departments = [] then (table, 0)
  else (departments.foldl
    (upsertRow (fun d => d.department_id)
      (fun old new => ⟨old.department_id, new.name⟩))
    table, departments.length)

/-- `insert_report_categories`: upsert keyed on `report_categories_id`,
overwriting `name` and `department_id`. -/
def insert_report_categories (table : List SeedCat)
    (categories : List SeedCat) : List SeedCat × Nat :=
  if categories = [] then (table, 0)
  else (categories.foldl
    (upsertRow (fun c => c.report_categories_id)
      (fun old new => ⟨old.report_categories_id, new.name, new.department_id⟩))
    table, categories.length)

/-- `insert_users`: upsert keyed on `email`; `DO UPDATE SET` overwrites
password, name, is_active, created_at, role_id and department_id (but not
`user_id`, which keeps the existing row's value). -/
def insert_users (table : List UserRow) (users : List UserRow) :
    List UserRow × Nat :=
  if users = [] then (table, 0)
  else (users.foldl
    (upsertRow (fun u => u.email)
      (fun old new => ⟨old.user_id, old.email, new.password, new.name,
        new.is_active, new.created_at, new.role_id, new.department_id⟩))
    table, users.length)

/-- The four seeded tables of the target database. -/
structure Store where
  roles : List SeedRole
  departments : List SeedDept
  report_categories : List SeedCat
  users : List UserRow
  deriving DecidableEq

def emptyStore : Store := ⟨[], [], [], []⟩

/-- The transaction body of `main`: the four inserts in source order. -/
def applyInserts (db : Store) (rows : List UserRow) : Store :=
  { roles := (insert_roles db.roles ROLES).1,
    departments := (insert_departments db.departments DEPARTMENTS).1,
    report_categories :=
      (insert_report_categories db.report_categories REPORT_CATEGORIES).1,
    users := (insert_users db.users rows).1 }

/-- The parsed command-line arguments of the seeder. -/
structure SeederArgs where
  dsn : Str
  cost : Int
  dry_run : Bool

/-- Observable outcome of one seeder run. -/
structure SeederResult where
  exitCode : Int
  hashCount : Nat
  connected : Bool
  released : Bool
  committed : Bool
  dryCounts : Option (Nat × Nat × Nat × Nat)
  db : Store

/-- `main()` of `seed_users.py`: cost-range check, dependency pre-flight,
normalization (with hashing), then either the dry-run report or
connect/transaction/close.  A connect failure returns 2 in the source; an
insert failure rolls the transaction back (the `with conn:` context
manager), returns 1, and still closes the connection; an uncaught
normalization `ValueError` terminates the interpreter with exit status 1
before any connection is opened. -/
def main (args : SeederArgs) (env : SeederEnv) (hashFn : Str → Int → Str)
    (now : Str) (db0 : Store) : SeederResult :=
  if args.cost < 4 ∨ 31 < args.cost then
    ⟨2, 0, false, false, false, none, db0⟩
  else if (validate_dependencies env).isSome then
    ⟨2, 0, false, false, false, none, db0⟩
  else
    match normalize_users USERS args.cost hashFn now with
    | .error _ => ⟨1, hashesDone USERS now, false, false, false, none, db0⟩
    | .ok rows =>
      if args.dry_run then
        ⟨0, hashesDone USERS now, false, false, false,
         some (ROLES.length, DEPARTMENTS.length, REPORT_CATEGORIES.length,
               rows.length), db0⟩
      else if !env.connectOk then
        ⟨2, hashesDone USERS now, false, false, false, none, db0⟩
      else if env.insertOk then
        ⟨0, hashesDone USERS now, true, true, true, none, applyInserts db0 rows⟩
      else
        ⟨1, hashesDone USERS now, true, true, false, none, db0⟩

/-- All external systems behaving: dependencies importable, connection and
inserts succeeding. -/
def goodEnv : SeederEnv := ⟨true, true, true, true⟩

/-- The result of normalizing the fixed `USERS` list: both timestamps parse
to `2025-01-01T00:00:00+00:00` and the passwords are hashed by the run's
hashing function. -/
def normRowsUSERS (cost : Int) (hashFn : Str → Int → Str) : List UserRow :=
  [⟨1, "normal.user@example.com".toList, hashFn "Password123!".toList cost,
    "Normal User".toList, true, "2025-01-01T00:00:00+00:00".toList, 0, 0⟩,
   ⟨2, "staff.user@example.com".toList, hashFn "StaffPass123!".toList cost,
    "Staff User".toList, true, "2025-01-01T00:00:00+00:00".toList, 1, 1⟩]

/-- One live seeder run at the default cost 10 against `db`, with the run's
bcrypt salts modelled by `h`, returning the resulting database state. -/
def seedRunDb (h : Str → Int → Str) (now : Str) (db : Store) : Store :=
  (main ⟨[], 10, false⟩ goodEnv h now db).db

/-- A user row without its (salt-dependent) password hash: the fields the
idempotence claim compares across runs. -/
def stripPw (u : UserRow) : Int × Str × Str × Bool × Str × Int × Int :=
  (u.user_id, u.email, u.name, u.is_active, u.created_at, u.role_id,
   u.department_id)

/-- A concrete stand-in for one run's bcrypt hashing, used in closed
evaluations. -/
def constHash : Str → Int → Str := fun p _ => p

end SeedUsers

namespace SeedUsers

lemma normalize_USERS_eq (cost : Int) (hashFn : Str → Int → Str) (now : Str) :
    normalize_users USERS cost hashFn now = .ok (normRowsUSERS cost hashFn) := rfl

lemma hashesDone_USERS (now : Str) : hashesDone USERS now = 2 := rfl

/-- Claim C6: a bcrypt cost outside 4–31 is rejected with exit code 2 before
any hashing, connection or database write; with the cost in range, a missing
hashing or driver dependency is likewise rejected with exit code 2 before
any connection attempt; and cost 10 is accepted (a dry run at cost 10 with
dependencies present exits 0). -/
theorem seeder_cost_and_dependency_validation
    (args : SeederArgs) (env : SeederEnv) (hashFn : Str → Int → Str)
    (now : Str) (db0 : Store) :
    ((args.cost < 4 ∨ 31 < args.cost) →
      (main args env hashFn now db0).exitCode = 2 ∧
      (main args env hashFn now db0).connected = false ∧
      (main args env hashFn now db0).hashCount = 0 ∧
      (main args env hashFn now db0).db = db0) ∧
    (4 ≤ args.cost → args.cost ≤ 31 →
      (env.bcryptOk = false ∨ env.psycopg2Ok = false) →
      (main args env hashFn now db0).exitCode = 2 ∧
      (main args env hashFn now db0).connected = false ∧
      (main args env hashFn now db0).db = db0) ∧
    (args.cost = 10 → args.dry_run = true → env.bcryptOk = true →
      env.psycopg2Ok = true → (main args env hashFn now db0).exitCode = 0) := by
  refine ⟨fun h => ?_, fun h4 h31 hdep => ?_, fun hc hd hb hp => ?_⟩
  · simp only [main]
    rw [if_pos h]
    exact ⟨rfl, rfl, rfl, rfl⟩
  · have hneg : ¬ (args.cost < 4 ∨ 31 < args.cost) := by omega
    have hdeps : (validate_dependencies env).isSome = true := by
      rcases hdep with h | h <;> cases hb : env.bcryptOk <;>
        simp_all [validate_dependencies]
    simp only [main]
    rw [if_neg hneg, if_pos hdeps]
    exact ⟨rfl, rfl, rfl⟩
  · have hneg : ¬ (args.cost < 4 ∨ 31 < args.cost) := by omega
    have hdeps : ¬ ((validate_dependencies env).isSome = true) := by
      simp [validate_dependencies, hb, hp]
    simp only [main]
    rw [if_neg hneg, if_neg hdeps, normalize_USERS_eq]
    simp [hd]

/-- Witness for C6: cost 3 and cost 32 are rejected with exit 2 before any
connection, a missing driver is rejected with exit 2, and a dry run at cost
10 with everything present exits 0. -/
theorem seeder_cost_and_dependency_validation_witness :
    (main ⟨[], 3, false⟩ goodEnv constHash [] emptyStore).exitCode = 2 ∧
    (main ⟨[], 32, false⟩ goodEnv constHash [] emptyStore).exitCode = 2 ∧
    (main ⟨[], 10, false⟩ ⟨true, false, true, true⟩ constHash []
      emptyStore).exitCode = 2 ∧
    (main ⟨[], 10, true⟩ goodEnv constHash [] emptyStore).exitCode = 0 := by
  refine ⟨?_, ?_, ?_, ?_⟩
  · exact ((seeder_cost_and_dependency_validation ⟨[], 3, false⟩ goodEnv
      constHash [] emptyStore).1 (by decide)).1
  · exact ((seeder_cost_and_dependency_validation ⟨[], 32, false⟩ goodEnv
      constHash [] emptyStore).1 (by decide)).1
  · exact ((seeder_cost_and_dependency_validation ⟨[], 10, false⟩
      ⟨true, false, true, true⟩ constHash [] emptyStore).2.1 (by decide)
      (by decide) (Or.inr rfl)).1
  · exact (seeder_cost_and_dependency_validation ⟨[], 10, true⟩ goodEnv
      constHash [] emptyStore).2.2 rfl rfl rfl rfl

/-- Counterexample to C1 as stated: a run at the default cost 10 with both
dependencies present (validation passes) whose database connection attempt
fails exits with code 2, not 1 — the source's `main` returns 2 from the
`psycopg2.connect` exception handler. -/
theorem seeder_connect_failure_exit_code :
    (main ⟨[], 10, false⟩ ⟨true, true, false, true⟩ constHash []
      emptyStore).exitCode = 2 ∧
    ¬ (main ⟨[], 10, false⟩ ⟨true, true, false, true⟩ constHash []
      emptyStore).exitCode = 1 := by
  exact ⟨rfl, by decide⟩

/-- Claim C1 (amended): after argument validation and the dependency
pre-flight pass, an error during insertion exits with code 1, with the
transaction not committed and the connection released; a failure to connect
to the database instead exits with code 2, with no connection held and the
store unchanged. -/
theorem seeder_runtime_failure_exit_codes
    (args : SeederArgs) (env : SeederEnv) (hashFn : Str → Int → Str)
    (now : Str) (db0 : Store)
    (h4 : 4 ≤ args.cost) (h31 : args.cost ≤ 31) (hb : env.bcryptOk = true)
    (hp : env.psycopg2Ok = true) (hd : args.dry_run = false) :
    (env.connectOk = true → env.insertOk = false →
      (main args env hashFn now db0).exitCode = 1 ∧
      (main args env hashFn now db0).committed = false ∧
      (main args env hashFn now db0).released = true ∧
      (main args env hashFn now db0).db = db0) ∧
    (env.connectOk = false →
      (main args env hashFn now db0).exitCode = 2 ∧
      (main args env hashFn now db0).connected = false ∧
      (main args env hashFn now db0).db = db0) := by
  have hneg : ¬ (args.cost < 4 ∨ 31 < args.cost) := by omega
  have hdeps : ¬ ((validate_dependencies env).isSome = true) := by
    simp [validate_dependencies, hb, hp]
  refine ⟨fun hco hio => ?_, fun hco => ?_⟩ <;>
    · simp only [main]
      rw [if_neg hneg, if_neg hdeps, normalize_USERS_eq]
      simp [hd, hco]
      try simp [hio]

/-- Witness for C1 (amended): at cost 10 with dependencies present, a failed
insert exits 1 without committing and with the connection released, and a
failed connect exits 2. -/
theorem seeder_runtime_failure_exit_codes_witness :
    ((main ⟨[], 10, false⟩ ⟨true, true, true, false⟩ constHash []
       emptyStore).exitCode = 1 ∧
     (main ⟨[], 10, false⟩ ⟨true, true, true, false⟩ constHash []
       emptyStore).committed = false ∧
     (main ⟨[], 10, false⟩ ⟨true, true, true, false⟩ constHash []
       emptyStore).released = true ∧
     (main ⟨[], 10, false⟩ ⟨true, true, true, false⟩ constHash []
       emptyStore).db = emptyStore) ∧
    (main ⟨[], 10, false⟩ ⟨true, true, false, true⟩ constHash []
      emptyStore).exitCode = 2 := by
  refine ⟨(seeder_runtime_failure_exit_codes ⟨[], 10, false⟩
    ⟨true, true, true, false⟩ constHash [] emptyStore (by decide) (by decide)
    rfl rfl rfl).1 rfl rfl, ((seeder_runtime_failure_exit_codes ⟨[], 10, false⟩
    ⟨true, true, false, true⟩ constHash [] emptyStore (by decide) (by decide)
    rfl rfl rfl).2 rfl).1⟩

/-- Claim C2: seeding twice against an initially empty store is idempotent —
whatever salts (`h1`, `h2`) and run start times (`now1`, `now2`) the two
runs use, the second run leaves the reference tables identical to the first
run's, leaves every listed user field (id, email, name, active flag,
timestamp, role, department) as the first run left it, and creates no
duplicate rows: exactly one row per seeded entity remains. -/
theorem seeder_upsert_idempotent (h1 h2 : Str → Int → Str)
    (now1 now2 : Str) :
    (seedRunDb h2 now2 (seedRunDb h1 now1 emptyStore)).roles =
      (seedRunDb h1 now1 emptyStore).roles ∧
    (seedRunDb h2 now2 (seedRunDb h1 now1 emptyStore)).departments =
      (seedRunDb h1 now1 emptyStore).departments ∧
    (seedRunDb h2 now2 (seedRunDb h1 now1 emptyStore)).report_categories =
      (seedRunDb h1 now1 emptyStore).report_categories ∧
    (seedRunDb h2 now2 (seedRunDb h1 now1 emptyStore)).users.map stripPw =
      (seedRunDb h1 now1 emptyStore).users.map stripPw ∧
    (seedRunDb h2 now2 (seedRunDb h1 now1 emptyStore)).users.length =
      USERS.length ∧
    (seedRunDb h2 now2 (seedRunDb h1 now1 emptyStore)).roles.length =
      ROLES.length ∧
    (seedRunDb h2 now2 (seedRunDb h1 now1 emptyStore)).departments.length =
      DEPARTMENTS.length ∧
    (seedRunDb h2 now2 (seedRunDb h1 now1
      emptyStore)).report_categories.length = REPORT_CATEGORIES.length :=
  ⟨rfl, rfl, rfl, rfl, rfl, rfl, rfl, rfl⟩

/-- Claim C8: a dry run whose cost and dependencies validate prints the four
would-insert counts (2 roles, 1 department, 1 report category, 2 users),
still performs one password hash per user, opens no database connection,
writes nothing, and exits 0 — the store is unchanged. -/
theorem seeder_dry_run_frame
    (args : SeederArgs) (env : SeederEnv) (hashFn : Str → Int → Str)
    (now : Str) (db0 : Store)
    (h4 : 4 ≤ args.cost) (h31 : args.cost ≤ 31) (hd : args.dry_run = true)
    (hb : env.bcryptOk = true) (hp : env.psycopg2Ok = true) :
    (main args env hashFn now db0).exitCode = 0 ∧
    (main args env hashFn now db0).dryCounts = some (2, 1, 1, 2) ∧
    (main args env hashFn now db0).hashCount = 2 ∧
    (main args env hashFn now db0).connected = false ∧
    (main args env hashFn now db0).db = db0 := by
  have hneg : ¬ (args.cost < 4 ∨ 31 < args.cost) := by omega
  have hdeps : ¬ ((validate_dependencies env).isSome = true) := by
    simp [validate_dependencies, hb, hp]
  simp only [main]
  rw [if_neg hneg, if_neg hdeps, normalize_USERS_eq]
  simp [hd, hashesDone_USERS]
  exact ⟨rfl, rfl, rfl, rfl⟩

/-- Witness for C8: the concrete dry run at cost 10. -/
theorem seeder_dry_run_frame_witness :
    (main ⟨[], 10, true⟩ goodEnv constHash [] emptyStore).exitCode = 0 ∧
    (main ⟨[], 10, true⟩ goodEnv constHash [] emptyStore).dryCounts =
      some (2, 1, 1, 2) ∧
    (main ⟨[], 10, true⟩ goodEnv constHash [] emptyStore).hashCount = 2 ∧
    (main ⟨[], 10, true⟩ goodEnv constHash [] emptyStore).connected = false ∧
    (main ⟨[], 10, true⟩ goodEnv constHash [] emptyStore).db = emptyStore :=
  seeder_dry_run_frame ⟨[], 10, true⟩ goodEnv constHash [] emptyStore
    (by decide) (by decide) rfl rfl rfl

end SeedUsers

namespace PushReports

lemma segsParts_cons (p : Str) (rest : List Str) :
    segsParts (p :: rest) =
      if pyStrip p = [] then segsParts rest else pyStrip p :: segsParts rest := by
  by_cases h : pyStrip p = [] <;> simp [segsParts, List.filter, h]

lemma collectInts_ne_noValues :
    ∀ parts, collectInts parts ≠ .error .noValues := by
  intro parts
  induction parts with
  | nil => simp [collectInts]
  | cons p rest ih =>
    by_cases h : pyStrip p = []
    · simpa [collectInts, h] using ih
    · cases hi : pyInt (pyStrip p) with
      | none => simp [collectInts, h, hi]
      | some n =>
        cases hc : collectInts rest with
        | error e =>
          rw [hc] at ih
          simp only [collectInts, h, if_neg h, hi, hc, Except.map]
          intro hcontra
          exact ih (by injection hcontra with he; rw [he])
        | ok vs => simp [collectInts, h, hi, hc, Except.map]

lemma collectInts_all_isSome :
    ∀ parts, (∀ s ∈ segsParts parts, (pyInt s).isSome = true) →
    collectInts parts = .ok ((segsParts parts).map (fun s => (pyInt s).getD 0)) := by
  intro parts
  induction parts with
  | nil => intro _; simp [collectInts, segsParts]
  | cons p rest ih =>
    intro hall
    rw [segsParts_cons] at hall ⊢
    by_cases h : pyStrip p = []
    · rw [if_pos h] at hall ⊢
      simpa [collectInts, h] using ih hall
    · rw [if_neg h] at hall ⊢
      have hs : (pyInt (pyStrip p)).isSome = true :=
        hall (pyStrip p) (List.mem_cons_self _ _)
      obtain ⟨n, hn⟩ := Option.isSome_iff_exists.mp hs
      have htail : ∀ s ∈ segsParts rest, (pyInt s).isSome = true :=
        fun s hmem => hall s (List.mem_cons_of_mem _ hmem)
      simp [collectInts, h, hn, ih htail, Except.map]

lemma collectInts_has_invalid :
    ∀ parts, (∃ s ∈ segsParts parts, pyInt s = none) →
    ∃ v, collectInts parts = .error (.invalidValue v) ∧
      v ∈ segsParts parts ∧ pyInt v = none := by
  intro parts
  induction parts with
  | nil => rintro ⟨s, hmem, -⟩; simp [segsParts] at hmem
  | cons p rest ih =>
    intro hex
    rw [segsParts_cons] at hex
    by_cases h : pyStrip p = []
    · rw [if_pos h] at hex
      obtain ⟨v, hv1, hv2, hv3⟩ := ih hex
      refine ⟨v, by simpa [collectInts, h] using hv1, ?_, hv3⟩
      rw [segsParts_cons, if_pos h]; exact hv2
    · rw [if_neg h] at hex
      cases hi : pyInt (pyStrip p) with
      | none =>
        refine ⟨pyStrip p, by simp [collectInts, h, hi], ?_, hi⟩
        rw [segsParts_cons, if_neg h]; exact List.mem_cons_self _ _
      | some n =>
        have hrest : ∃ s ∈ segsParts rest, pyInt s = none := by
          obtain ⟨s, hmem, hnone⟩ := hex
          rcases List.mem_cons.mp hmem with heq | hmem'
          · rw [heq] at hnone; rw [hnone] at hi; cases hi
          · exact ⟨s, hmem', hnone⟩
        obtain ⟨v, hv1, hv2, hv3⟩ := ih hrest
        refine ⟨v, ?_, ?_, hv3⟩
        · simp [collectInts, h, hi, hv1, Except.map]
        · rw [segsParts_cons, if_neg h]; exact List.mem_cons_of_mem _ hv2

lemma collectInts_ok_length :
    ∀ parts l, collectInts parts = .ok l → l.length = (segsParts parts).length := by
  intro parts
  induction parts with
  | nil => intro l hl; simp [collectInts] at hl; simp [← hl, segsParts]
  | cons p rest ih =>
    intro l hl
    rw [segsParts_cons]
    by_cases h : pyStrip p = []
    · rw [if_pos h]
      exact ih l (by simpa [collectInts, h] using hl)
    · rw [if_neg h]
      cases hi : pyInt (pyStrip p) with
      | none => simp [collectInts, h, hi] at hl
      | some n =>
        cases hc : collectInts rest with
        | error e => simp [collectInts, h, hi, hc, Except.map] at hl
        | ok vs =>
          simp only [collectInts, if_neg h, hi, hc, Except.map] at hl
          injection hl with hl'
          simp [← hl', ih vs hc]

/-- Claim C10: `parse_int_list` skips empty and whitespace-only segments:
when every non-empty stripped segment parses as an integer and at least one
exists, it returns their values in order; when some non-empty segment is not
an integer, it raises an invalid-value error naming such a segment; and it
raises the at-least-one-value error exactly when no non-empty segment
exists. -/
theorem parse_int_list_spec (raw : Str) :
    ((∀ s ∈ segsOf raw, (pyInt s).isSome = true) → segsOf raw ≠ [] →
      parse_int_list raw = .ok ((segsOf raw).map (fun s => (pyInt s).getD 0))) ∧
    ((∃ s ∈ segsOf raw, pyInt s = none) →
      ∃ v, parse_int_list raw = .error (.invalidValue v) ∧
        v ∈ segsOf raw ∧ pyInt v = none) ∧
    (parse_int_list raw = .error .noValues ↔ segsOf raw = []) := by
  refine ⟨fun hall hne => ?_, fun hex => ?_, ?_, ?_⟩
  · have hc := collectInts_all_isSome (splitComma raw) hall
    rw [parse_int_list, hc]
    cases hs : segsOf raw with
    | nil => exact absurd hs hne
    | cons a l => rw [segsOf] at hs; simp [hs]
  · obtain ⟨v, hv1, hv2, hv3⟩ := collectInts_has_invalid (splitComma raw) hex
    exact ⟨v, by rw [parse_int_list, hv1], hv2, hv3⟩
  · intro hnv
    rw [parse_int_list] at hnv
    cases hc : collectInts (splitComma raw) with
    | error e =>
      rw [hc] at hnv
      simp only [] at hnv
      injection hnv with he
      rw [he] at hc
      exact absurd hc (collectInts_ne_noValues (splitComma raw))
    | ok vs =>
      rw [hc] at hnv
      cases vs with
      | nil =>
        have hlen := collectInts_ok_length (splitComma raw) [] hc
        have hz : (segsParts (splitComma raw)).length = 0 := by
          simpa using hlen.symm
        rw [segsOf]
        exact List.length_eq_zero.mp hz
      | cons a l => simp at hnv
  · intro hempty
    have hall : ∀ s ∈ segsOf raw, (pyInt s).isSome = true := by
      rw [hempty]; intro s hs; cases hs
    have hc := collectInts_all_isSome (splitComma raw) hall
    rw [segsOf] at hempty
    rw [parse_int_list, hc, hempty]
    rfl

/-- Witness for C10: `"1,,2,"` parses to `[1, 2]`, empty segments skipped. -/
theorem parse_int_list_spec_witness :
    parse_int_list ("1,,2,".toList) = .ok [1, 2] := by
  have h := (parse_int_list_spec ("1,,2,".toList)).1 (by decide) (by decide)
  have e : ((segsOf ("1,,2,".toList)).map (fun s => (pyInt s).getD 0)) = [1, 2] := by
    decide
  rw [h, e]

/-- Counterexample to C9 as stated: with base URL `http://h` and endpoint
`//r` (which already starts with `/` and is therefore used verbatim), the
built URL is `http://h//r` — the request target does not have exactly one
`/` between base URL and endpoint path. -/
theorem url_one_slash_counterexample :
    ¬ OneSlashJoin ("http://h".toList) ("//r".toList) := by
  rintro ⟨t, h1, h2⟩
  have e1 : mkUrl ("http://h".toList) ("//r".toList) =
      "http://h".toList ++ ['/', '/', 'r'] := by decide
  have e2 : rstripSlashes ("http://h".toList) = "http://h".toList := by decide
  rw [e1, e2] at h1
  have h3 : ['/', '/', 'r'] = '/' :: t := List.append_cancel_left h1
  injection h3 with _ h4
  rw [← h4] at h2
  simp at h2

/-- Claim C9 (amended): the pusher posts to the URL formed by stripping all
trailing `/` from the base URL and prefixing the endpoint with `/` when it
does not already start with one; whenever the endpoint does not begin with
two slashes, the request target has exactly one `/` between base URL and
endpoint path. -/
theorem url_one_slash (b e : Str) (h : twoLeadingSlashes e = false) :
    OneSlashJoin b e := by
  cases e with
  | nil => exact ⟨[], by simp [mkUrl, startsWithSlash], by simp⟩
  | cons c rest =>
    by_cases hc : c = '/'
    · subst hc
      refine ⟨rest, by simp [mkUrl, startsWithSlash], ?_⟩
      have hr : startsWithSlash rest = false := by
        simpa [twoLeadingSlashes, startsWithSlash] using h
      cases rest with
      | nil => simp
      | cons d rd =>
        simp only [startsWithSlash, decide_eq_false_iff_not] at hr
        simp [hr]
    · exact ⟨c :: rest, by simp [mkUrl, startsWithSlash, hc], by simp [hc]⟩

/-- Witness for C9 (amended): the default base URL and endpoint join with
exactly one slash. -/
theorem url_one_slash_witness :
    OneSlashJoin ("http://localhost:3001".toList) ("/reports".toList) :=
  url_one_slash _ _ (by decide)

end PushReports

namespace PushReports

lemma runIters_attempts (C : LoopCtx σ) :
    ∀ (k idx : Nat) (st : LoopState σ),
    (runIters C k idx st).attempts =
      st.attempts + (if C.dryRun then 0 else k) := by
  intro k
  induction k with
  | zero => intro idx st; simp [runIters]
  | succ n ih =>
    intro idx st
    by_cases hd : C.dryRun = true
    · simp [runIters, hd, ih]
    · simp only [Bool.not_eq_true] at hd
      simp [runIters, hd, ih]
      omega

lemma runIters_printed (C : LoopCtx σ) :
    ∀ (k idx : Nat) (st : LoopState σ),
    (runIters C k idx st).printed =
      st.printed + (if C.dryRun then k else 0) := by
  intro k
  induction k with
  | zero => intro idx st; simp [runIters]
  | succ n ih =>
    intro idx st
    by_cases hd : C.dryRun = true
    · simp [runIters, hd, ih]; omega
    · simp only [Bool.not_eq_true] at hd
      simp [runIters, hd, ih]

lemma runIters_failures (C : LoopCtx σ) :
    ∀ (k idx : Nat) (st : LoopState σ),
    (runIters C k idx st).failures =
      st.failures + (if C.dryRun then 0 else countFails C.net idx k) := by
  intro k
  induction k with
  | zero => intro idx st; simp [runIters, countFails]
  | succ n ih =>
    intro idx st
    by_cases hd : C.dryRun = true
    · simp [runIters, hd, ih]
    · simp only [Bool.not_eq_true] at hd
      cases hnet : C.net idx <;>
        simp [runIters, hd, ih, countFails, hnet] <;> omega

lemma runIters_successes (C : LoopCtx σ) :
    ∀ (k idx : Nat) (st : LoopState σ),
    (runIters C k idx st).successes =
      st.successes + (if C.dryRun then 0 else countSuccs C.net idx k) := by
  intro k
  induction k with
  | zero => intro idx st; simp [runIters, countSuccs]
  | succ n ih =>
    intro idx st
    by_cases hd : C.dryRun = true
    · simp [runIters, hd, ih]
    · simp only [Bool.not_eq_true] at hd
      cases hnet : C.net idx <;>
        simp [runIters, hd, ih, countSuccs, hnet] <;> omega

lemma runIters_payloads_ctx (M : RNGModel σ) (cats : List Int)
    (sevs : List Str) (pr ar : Rat) (dry : Bool) (net net' : Nat → Bool) :
    ∀ (k idx idx' : Nat) (st st' : LoopState σ),
    st.g = st'.g → st.payloads = st'.payloads →
    (runIters ⟨M, cats, sevs, pr, ar, dry, net⟩ k idx st).payloads =
    (runIters ⟨M, cats, sevs, pr, ar, dry, net'⟩ k idx' st').payloads := by
  intro k
  induction k with
  | zero => intro idx idx' st st' hg hp; simpa [runIters] using hp
  | succ n ih =>
    intro idx idx' st st' hg hp
    cases dry with
    | true =>
      simp only [runIters, reduceIte]
      apply ih
      · simp [hg]
      · simp [hg, hp]
    | false =>
      simp only [runIters, reduceIte]
      apply ih
      · simp [hg]
      · simp [hg, hp]

end PushReports

namespace PushReports

/-- Claim C3: for every run that passes argument validation, the exit code
is 0 iff no delivery failed and 1 iff at least one failed; the final tally
line reports the run's success and failure counts; in live mode those
counts are exactly the delivery outcomes the network reported for attempts
1..N, and a dry run has no failures. -/
theorem pusher_exit_iff_failures (M : RNGModel σ) (a : PusherArgs) (g0 : σ)
    (net : Nat → Bool) (hv : argsValid a) :
    (main M a g0 net).tally =
      some ((main M a g0 net).successes, (main M a g0 net).failures) ∧
    ((main M a g0 net).exitCode = 0 ↔ (main M a g0 net).failures = 0) ∧
    ((main M a g0 net).exitCode = 1 ↔ ¬ (main M a g0 net).failures = 0) ∧
    (a.dry_run = false →
      (main M a g0 net).failures = countFails net 1 a.count.toNat ∧
      (main M a g0 net).successes = countSuccs net 1 a.count.toNat) ∧
    (a.dry_run = true → (main M a g0 net).failures = 0) := by
  obtain ⟨h1, h2, h3, h4, h5, h6⟩ := hv
  cases hp : parse_int_list a.categories with
  | error e => rw [hp] at h3; simp [Except.isOk, Except.toBool] at h3
  | ok cats =>
    have hc : ¬ a.count ≤ 0 := by omega
    simp only [main, h1, hp, Bool.false_eq_true, if_false, if_neg hc,
      if_neg h4, if_neg (not_not_intro h5), if_neg (not_not_intro h6)]
    refine ⟨trivial, ?_, ?_, fun hdry => ⟨?_, ?_⟩, fun hdry => ?_⟩
    · split <;> simp_all
    · split <;> simp_all
    · rw [runIters_failures]; simp [hdry]
    · rw [runIters_successes]; simp [hdry]
    · rw [runIters_failures]; simp [hdry]

/-- Witness for C3: three all-successful deliveries with the default valid
arguments. -/
theorem pusher_exit_iff_failures_witness :
    (main unitRNG argsLive () (fun _ => true)).tally =
      some ((main unitRNG argsLive () (fun _ => true)).successes,
            (main unitRNG argsLive () (fun _ => true)).failures) ∧
    ((main unitRNG argsLive () (fun _ => true)).exitCode = 0 ↔
      (main unitRNG argsLive () (fun _ => true)).failures = 0) ∧
    ((main unitRNG argsLive () (fun _ => true)).exitCode = 1 ↔
      ¬ (main unitRNG argsLive () (fun _ => true)).failures = 0) ∧
    (argsLive.dry_run = false →
      (main unitRNG argsLive () (fun _ => true)).failures =
        countFails (fun _ => true) 1 argsLive.count.toNat ∧
      (main unitRNG argsLive () (fun _ => true)).successes =
        countSuccs (fun _ => true) 1 argsLive.count.toNat) ∧
    (argsLive.dry_run = true →
      (main unitRNG argsLive () (fun _ => true)).failures = 0) :=
  pusher_exit_iff_failures unitRNG argsLive () (fun _ => true) (by decide)

/-- Claim C5: for every argument vector that passes validation (so in
particular `count = N > 0`), a live run attempts exactly N deliveries and
prints no dry-run payload line, and a dry run prints exactly N payload
lines and attempts no delivery. -/
theorem pusher_attempt_counts (M : RNGModel σ) (a : PusherArgs) (g0 : σ)
    (net : Nat → Bool) (hv : argsValid a) :
    (a.dry_run = false →
      (main M a g0 net).attempts = a.count.toNat ∧
      (main M a g0 net).printed = 0) ∧
    (a.dry_run = true →
      (main M a g0 net).printed = a.count.toNat ∧
      (main M a g0 net).attempts = 0) := by
  obtain ⟨h1, h2, h3, h4, h5, h6⟩ := hv
  cases hp : parse_int_list a.categories with
  | error e => rw [hp] at h3; simp [Except.isOk, Except.toBool] at h3
  | ok cats =>
    have hc : ¬ a.count ≤ 0 := by omega
    simp only [main, h1, hp, Bool.false_eq_true, if_false, if_neg hc,
      if_neg h4, if_neg (not_not_intro h5), if_neg (not_not_intro h6)]
    refine ⟨fun hdry => ⟨?_, ?_⟩, fun hdry => ⟨?_, ?_⟩⟩
    · rw [runIters_attempts]; simp [hdry]
    · rw [runIters_printed]; simp [hdry]
    · rw [runIters_printed]; simp [hdry]
    · rw [runIters_attempts]; simp [hdry]

/-- Witness for C5: with `--count=3`, the live run attempts exactly 3
deliveries and the dry run prints exactly 3 payloads. -/
theorem pusher_attempt_counts_witness :
    ((argsLive.dry_run = false →
      (main unitRNG argsLive () (fun _ => true)).attempts =
        argsLive.count.toNat ∧
      (main unitRNG argsLive () (fun _ => true)).printed = 0) ∧
     (argsLive.dry_run = true →
      (main unitRNG argsLive () (fun _ => true)).printed =
        argsLive.count.toNat ∧
      (main unitRNG argsLive () (fun _ => true)).attempts = 0)) ∧
    ((argsDry.dry_run = false →
      (main unitRNG argsDry () (fun _ => true)).attempts =
        argsDry.count.toNat ∧
      (main unitRNG argsDry () (fun _ => true)).printed = 0) ∧
     (argsDry.dry_run = true →
      (main unitRNG argsDry () (fun _ => true)).printed =
        argsDry.count.toNat ∧
      (main unitRNG argsDry () (fun _ => true)).attempts = 0)) :=
  ⟨pusher_attempt_counts unitRNG argsLive () (fun _ => true) (by decide),
   pusher_attempt_counts unitRNG argsDry () (fun _ => true) (by decide)⟩

/-- Claim C4: with `--seed=S` and every other argument fixed, the sequence
of generated payloads does not depend on the PRNG state inherited at
startup nor on the network's responses: any two runs generate identical
payload sequences (titles, descriptions, locations, severities, category
ids, is_public and is_anon, in order).  Quantified over every PRNG model,
so it holds in particular for the Mersenne Twister of `random`. -/
theorem pusher_seed_determinism (M : RNGModel σ) (tok : Option Str)
    (bu ep : Str) (cnt : Int) (cat sev : Str) (pr ar : Rat) (s : Int)
    (dry : Bool) (g0 g0' : σ) (net net' : Nat → Bool) :
    (main M ⟨tok, bu, ep, cnt, cat, sev, pr, ar, some s, dry⟩ g0
      net).payloads =
    (main M ⟨tok, bu, ep, cnt, cat, sev, pr, ar, some s, dry⟩ g0'
      net').payloads := by
  simp only [main]
  by_cases ht : tokenFalsy tok = true
  · simp only [if_pos ht]
  · simp only [if_neg ht]
    by_cases hc : cnt ≤ 0
    · simp only [if_pos hc]
    · simp only [if_neg hc]
      cases hp : parse_int_list cat with
      | error e => rfl
      | ok cats =>
        by_cases hs : segsOf sev = []
        · simp only [if_pos hs]
        · simp only [if_neg hs]
          by_cases hpr : 0 ≤ pr ∧ pr ≤ 1
          · simp only [if_neg (not_not_intro hpr)]
            by_cases har : 0 ≤ ar ∧ ar ≤ 1
            · simp only [if_neg (not_not_intro har)]
              exact runIters_payloads_ctx M cats (segsOf sev) pr ar dry
                net net' cnt.toNat 1 1 _ _ rfl rfl
            · simp only [if_pos (show ¬ (0 ≤ ar ∧ ar ≤ 1) from har)]
          · simp only [if_pos (show ¬ (0 ≤ pr ∧ pr ≤ 1) from hpr)]

/-- Claim C7: an invalid count (zero or negative), a probability outside
`[0,1]`, a category or severity list parsing to no values, or a missing
token makes the pusher exit with code 2 without attempting any request. -/
theorem pusher_invalid_args (M : RNGModel σ) (a : PusherArgs) (g0 : σ)
    (net : Nat → Bool)
    (h : tokenFalsy a.token = true ∨ a.count ≤ 0 ∨
      ¬ (0 ≤ a.public_rate ∧ a.public_rate ≤ 1) ∨
      ¬ (0 ≤ a.anon_rate ∧ a.anon_rate ≤ 1) ∨
      parse_int_list a.categories = .error .noValues ∨
      segsOf a.severities = []) :
    (main M a g0 net).exitCode = 2 ∧ (main M a g0 net).attempts = 0 := by
  by_cases ht : tokenFalsy a.token = true
  · simp [main, ht, failRes]
  · by_cases hc : a.count ≤ 0
    · simp [main, ht, hc, failRes]
    · cases hp : parse_int_list a.categories with
      | error e => simp [main, ht, hc, hp, failRes]
      | ok cats =>
        by_cases hs : segsOf a.severities = []
        · simp [main, ht, hc, hp, hs, failRes]
        · by_cases hpr : 0 ≤ a.public_rate ∧ a.public_rate ≤ 1
          · by_cases har : 0 ≤ a.anon_rate ∧ a.anon_rate ≤ 1
            · exfalso
              rcases h with h | h | h | h | h | h
              · exact ht h
              · exact hc h
              · exact h hpr
              · exact h har
              · rw [hp] at h; simp at h
              · exact hs h
            · simp [main, ht, hc, hp, hs, hpr.1, hpr.2, har, failRes]
          · simp [main, ht, hc, hp, hs, hpr, failRes]

/-- Witness for C7: `--count=0` exits 2 with no request attempted. -/
theorem pusher_invalid_args_witness :
    (main unitRNG { argsLive with count := 0 } ()
      (fun _ => true)).exitCode = 2 ∧
    (main unitRNG { argsLive with count := 0 } ()
      (fun _ => true)).attempts = 0 :=
  pusher_invalid_args unitRNG { argsLive with count := 0 } ()
    (fun _ => true) (Or.inr (Or.inl (by decide)))

end PushReports
